import Mathlib

/-
Shallow embedding of src/src/GraphService.ts (module GraphService):
a client-side access layer over a directory service, with four
promise caches (profiles, photos, managers, direct reports), a
request batcher, and a bounded manager-chain traversal.

Promises are modelled by identifiers (Nat); settlement of a promise
with a profile value is an explicit event, and the then/catch
callbacks registered by cacheByIdOrEmail are modelled as explicit
registrations that fire on the settlement event.  Machine integers
do not occur; JavaScript loose values that matter (the
accountEnabled field, string truthiness of the email field) are
modelled explicitly.
-/

namespace GraphService

/-- Profile record produced by buildProfile (IPersonaProfile in Types.ts);
fields other than the ones the source reads unconditionally are optional,
since the source tolerates their absence. -/
structure IPersonaProfile where
  id : String
  displayName : Option String
  jobTitle : Option String
  department : Option String
  email : Option String
  officeLocation : Option String
  city : Option String
  businessPhone : Option String
  imAddress : Option String
  companyName : Option String
deriving DecidableEq, Repr

/-- JavaScript Error object as the source uses it: a name (defaults to
the string Error, set to NotFound by buildErrorFromResponse on 404)
and a message. -/
structure JsError where
  name : String
  message : String
deriving DecidableEq, Repr

/-- JavaScript loose value for the accountEnabled field of a direct
report entry: property access on an absent field yields undefined, so
undefined also covers absence. -/
inductive JsValue where
  | undef : JsValue
  | nullVal : JsValue
  | boolVal (b : Bool) : JsValue
  | strVal (s : String) : JsValue
  | numVal (n : Int) : JsValue
deriving DecidableEq, Repr

/-- JavaScript strict equality test of a value against literal false,
as used by the filter in getDirectsInternal: only the boolean false is
strictly equal to false. -/
def jsStrictEqFalse : JsValue → Bool
  | JsValue.boolVal false => true
  | _ => false

/-- Raw user payload as the per-user JSON object the service returns:
the fields buildProfile reads, plus accountEnabled as a loose value. -/
structure UserData where
  id : String
  displayName : Option String
  jobTitle : Option String
  mail : Option String
  department : Option String
  officeLocation : Option String
  city : Option String
  businessPhones : Option (List String)
  imAddresses : Option (List String)
  companyName : Option String
  accountEnabled : JsValue
deriving DecidableEq, Repr

/-- Head of an optional list, modelling the truthiness guard
(xs && xs.length) ? xs[0] : undefined in buildProfile. -/
def firstOrNone : Option (List String) → Option String
  | some (x :: _) => some x
  | _ => none

/-- buildProfile from GraphService.ts: maps the raw payload to an
IPersonaProfile, taking the first business phone and IM address when
the arrays are present and non-empty. -/
def buildProfile (data : UserData) : IPersonaProfile :=
  { id := data.id
    displayName := data.displayName
    jobTitle := data.jobTitle
    department := data.department
    email := data.mail
    officeLocation := data.officeLocation
    city := data.city
    businessPhone := firstOrNone data.businessPhones
    imAddress := firstOrNone data.imAddresses
    companyName := data.companyName }

/-- HTTP response for the direct (non-batched) fetch calls: status,
statusText and a typed body. -/
structure HttpResponse (α : Type) where
  status : Nat
  statusText : String
  body : α
deriving DecidableEq, Repr

/-- Response.ok of the fetch API: status in the range 200 to 299. -/
def respOk {α : Type} (r : HttpResponse α) : Bool :=
  decide (200 ≤ r.status) && decide (r.status < 300)

/-- buildErrorFromResponse from GraphService.ts: a new Error carries
the statusText as message and the default name Error; on status 404
the name is set to NotFound. -/
def buildErrorFromResponse {α : Type} (response : HttpResponse α) : JsError :=
  { name := if response.status = 404 then "NotFound" else "Error"
    message := response.statusText }

/-- getManagerInternal from GraphService.ts, as a function of the HTTP
response the fetch produced: on ok, build the profile from the JSON
body; otherwise throw buildErrorFromResponse. -/
def getManagerInternal (response : HttpResponse UserData) : Except JsError IPersonaProfile :=
  if respOk response then Except.ok (buildProfile response.body)
  else Except.error (buildErrorFromResponse response)

/-- getPhotoUrlInternal from GraphService.ts, as a function of the HTTP
response: on ok, URL.createObjectURL over the blob (modelled as an
abstract string token turned into a blob URL); otherwise throw
buildErrorFromResponse. -/
def getPhotoUrlInternal (response : HttpResponse String) : Except JsError String :=
  if respOk response then Except.ok ("blob:" ++ response.body)
  else Except.error (buildErrorFromResponse response)

/-- getDirectsInternal from GraphService.ts, as a function of the HTTP
response whose JSON body has a value array: on ok, keep the entries
whose accountEnabled is not strictly equal to false and map each
through buildProfile; otherwise throw buildErrorFromResponse. -/
def getDirectsInternal (response : HttpResponse (List UserData)) : Except JsError (List IPersonaProfile) :=
  if respOk response then
    Except.ok (((response.body).filter (fun p => !jsStrictEqFalse p.accountEnabled)).map buildProfile)
  else Except.error (buildErrorFromResponse response)

/-- Body of one entry of a batched response: the JSON payload, with
the optional error.message path the source reads on failure. -/
structure BatchBody where
  payload : UserData
  errMessage : Option String
deriving DecidableEq, Repr

/-- One entry of the batched response collection: id, status, body
(headers are never read by the source and are omitted). -/
structure BatchResponseEntry where
  id : String
  status : Nat
  body : BatchBody
deriving DecidableEq, Repr

/-- resolveProfileInternal from GraphService.ts, as a function of the
batch entry the enqueued request settled with: on status below 400,
build the profile; otherwise throw Error(message or status) — a plain
Error whose name keeps the default value Error. -/
def resolveProfileInternal (response : BatchResponseEntry) : Except JsError IPersonaProfile :=
  if response.status < 400 then Except.ok (buildProfile response.body.payload)
  else
    Except.error
      { name := "Error"
        message :=
          match response.body.errMessage with
          | some m => m
          | none => toString response.status }

/-- Name of the error a computation failed with, if it failed. -/
def errName {α : Type} : Except JsError α → Option String
  | Except.error e => some e.name
  | Except.ok _ => none

/-
Batcher settlement model.  processBatch snapshots the queue, issues
one network call, and settles each PendingRequest of the snapshot:
on transport failure every request is rejected with that failure; on
a non-ok batch response processResponse throws buildErrorFromResponse,
which processBatch catches by rejecting every request; on an ok batch
response each entry of data.responses resolves processingQueue[id] —
an entry whose id is not in the snapshot makes that member access
undefined and the loop dies with a TypeError, which the same catch
turns into rejecting every request.  We record every resolve/reject
invocation in order as a list of settle calls; since a JavaScript
promise adopts its first settlement, the outcome a caller observes is
the first call recorded for its request id.
-/

/-- PendingRequest as the batcher stores it (the resolve and reject
callbacks are implicit: settlement is recorded by request id). -/
structure PendingRequest where
  id : String
  url : String
  method : String
deriving DecidableEq, Repr

/-- One resolve or reject invocation on the promise of a pending request. -/
inductive Settlement where
  | resolved (entry : BatchResponseEntry) : Settlement
  | rejected (e : JsError) : Settlement
deriving DecidableEq, Repr

/-- Outcome of the single network call a flush performs: either the
fetch (or the JSON parse) itself failed, or an HTTP response with the
parsed responses collection arrived. -/
inductive BatchOutcome where
  | transportError (e : JsError) : BatchOutcome
  | httpResponse (status : Nat) (statusText : String) (entries : List BatchResponseEntry) : BatchOutcome
deriving DecidableEq, Repr

/-- TypeError raised by processingQueue[id].onResolve when id is not a
key of the processing queue. -/
def typeErrorUndefined : JsError :=
  { name := "TypeError", message := "Cannot read properties of undefined" }

/-- Resolve loop of processResponse over the entries of an ok batch
response: each entry whose id belongs to the snapshot resolves that
request; the first entry whose id does not raises a TypeError, which
the catch in processBatch turns into rejecting every request of the
snapshot. -/
def entrySettleCalls (snapshot : List PendingRequest) :
    List BatchResponseEntry → List (String × Settlement)
  | [] => []
  | entry :: rest =>
    if snapshot.any (fun r => r.id = entry.id) then
      (entry.id, Settlement.resolved entry) :: entrySettleCalls snapshot rest
    else
      snapshot.map (fun r => (r.id, Settlement.rejected typeErrorUndefined))

/-- Settle calls processBatch performs on the snapshot for a given
outcome of its network call. -/
def processBatchCalls (snapshot : List PendingRequest) : BatchOutcome → List (String × Settlement)
  | BatchOutcome.transportError e =>
    snapshot.map (fun r => (r.id, Settlement.rejected e))
  | BatchOutcome.httpResponse status statusText entries =>
    if 200 ≤ status ∧ status < 300 then
      entrySettleCalls snapshot entries
    else
      snapshot.map (fun r =>
        (r.id, Settlement.rejected
          (buildErrorFromResponse (HttpResponse.mk status statusText ()))))

/-- Settlement the promise of a pending request adopts: the first resolve
or reject call recorded against its id, none when it is never
settled. -/
def promiseOutcome (calls : List (String × Settlement)) (id : String) : Option Settlement :=
  (calls.find? (fun c => c.fst = id)).map (fun c => c.snd)

/-
Multi-key cache machine.  The module state holds four key-to-promise
maps (profilesCache, photosCache, managersCache, directsCache).
Promises are numbered as they are created.  cacheByIdOrEmail registers
a then/catch pair on a driving profile promise; we record it as a
Registration (driving promise, value promise, target cache) that fires
when the driving promise resolves and does nothing when it rejects.
getDirects additionally registers, on the directs promise itself, the
member-seeding callback that caches the profile of each direct report.
A fetch log records every underlying network request issued.
-/

/-- The four cache maps of the module, one per operation. -/
inductive OpKind where
  | profileOp : OpKind
  | photoOp : OpKind
  | managerOp : OpKind
  | directsOp : OpKind
deriving DecidableEq, Repr

/-- Pending cacheByIdOrEmail callback: when promise driving resolves
with a profile, store promise value in the target cache under the
id of the profile and (when truthy) its email; when it rejects, do nothing. -/
structure Registration where
  driving : Nat
  value : Nat
  target : OpKind
deriving DecidableEq, Repr

/-- Cache map from string keys to promise identifiers. -/
def CacheMap : Type := String → Option Nat

/-- Update of a cache map at one key. -/
def cacheInsert (c : CacheMap) (key : String) (v : Nat) : CacheMap :=
  fun k => if k = key then some v else c k

/-- Module-level mutable state of GraphService. -/
structure GState where
  profilesCache : CacheMap
  photosCache : CacheMap
  managersCache : CacheMap
  directsCache : CacheMap
  nextPromiseId : Nat
  fetchLog : List (OpKind × String)
  registrations : List Registration
  seedPromises : List Nat

/-- Initial state: empty caches, no pending callbacks, no fetches. -/
def initState : GState :=
  { profilesCache := fun _ => none
    photosCache := fun _ => none
    managersCache := fun _ => none
    directsCache := fun _ => none
    nextPromiseId := 0
    fetchLog := []
    registrations := []
    seedPromises := [] }

/-- The cache map an operation owns. -/
def cacheOf (op : OpKind) (s : GState) : CacheMap :=
  match op with
  | OpKind.profileOp => s.profilesCache
  | OpKind.photoOp => s.photosCache
  | OpKind.managerOp => s.managersCache
  | OpKind.directsOp => s.directsCache

/-- Replacement of the cache map an operation owns. -/
def setCache (op : OpKind) (c : CacheMap) (s : GState) : GState :=
  match op with
  | OpKind.profileOp => { s with profilesCache := c }
  | OpKind.photoOp => { s with photosCache := c }
  | OpKind.managerOp => { s with managersCache := c }
  | OpKind.directsOp => { s with directsCache := c }

/-- JavaScript truthiness of the email field read by cacheByIdOrEmail:
an absent email and the empty string are falsy. -/
def jsTruthyEmail : Option String → Bool
  | none => false
  | some s => !(s = "")

/-- Body of the then-callback cacheByIdOrEmail registers: store the
value promise under the id of the resolved profile, and under its email
when the email is truthy. -/
def cacheWrite (p : IPersonaProfile) (value : Nat) (c : CacheMap) : CacheMap :=
  let c1 := cacheInsert c p.id value
  match p.email with
  | some e => if e = "" then c1 else cacheInsert c1 e value
  | none => c1

/-- Firing of one registration when its driving promise resolved with
profile p. -/
def fireRegistration (p : IPersonaProfile) (r : Registration) (s : GState) : GState :=
  setCache r.target (cacheWrite p r.value (cacheOf r.target s)) s

/-- Synchronous body of a public operation called with a key: on a
cache hit return the stored promise unchanged; on a miss create the
promise for the underlying fetch, store it under the key, and register
the cacheByIdOrEmail callbacks exactly as the source does for that
operation.  Returns the new state and the promise the caller gets. -/
def stepCall (op : OpKind) (key : String) (s : GState) : GState × Nat :=
  match cacheOf op s key with
  | some f => (s, f)
  | none =>
    let fid := s.nextPromiseId
    let s1 := setCache op (cacheInsert (cacheOf op s) key fid) s
    let s2 := { s1 with
      nextPromiseId := fid + 1
      fetchLog := s1.fetchLog ++ [(op, key)] }
    match op with
    | OpKind.profileOp =>
      ({ s2 with registrations :=
          s2.registrations ++ [Registration.mk fid fid OpKind.profileOp] }, fid)
    | OpKind.photoOp =>
      match s.profilesCache key with
      | some pf =>
        ({ s2 with registrations :=
            s2.registrations ++ [Registration.mk pf fid OpKind.photoOp] }, fid)
      | none => (s2, fid)
    | OpKind.managerOp =>
      let regs :=
        match s.profilesCache key with
        | some pf => [Registration.mk pf fid OpKind.managerOp,
                      Registration.mk fid fid OpKind.profileOp]
        | none => [Registration.mk fid fid OpKind.profileOp]
      ({ s2 with registrations := s2.registrations ++ regs }, fid)
    | OpKind.directsOp =>
      let regs :=
        match s.profilesCache key with
        | some pf => [Registration.mk pf fid OpKind.directsOp]
        | none => []
      ({ s2 with registrations := s2.registrations ++ regs
                 seedPromises := s2.seedPromises ++ [fid] }, fid)

/-- Seeding of one direct report into the profiles cache, as the
member-seeding callback of getDirects does: cacheByIdOrEmail over a
fresh already-resolved promise holding the profile of the member. -/
def seedOneDirect (s : GState) (p : IPersonaProfile) : GState :=
  let fid := s.nextPromiseId
  { s with
    nextPromiseId := fid + 1
    profilesCache := cacheWrite p fid s.profilesCache }

/-- Asynchronous settlement events: a profile-typed promise resolves
or rejects, or a directs promise resolves with its member list or
rejects. -/
inductive Event where
  | callOp (op : OpKind) (key : String) : Event
  | settleOk (fid : Nat) (p : IPersonaProfile) : Event
  | settleErr (fid : Nat) (e : JsError) : Event
  | settleDirectsOk (fid : Nat) (members : List IPersonaProfile) : Event
  | settleDirectsErr (fid : Nat) (e : JsError) : Event

/-- One step of the machine.  Resolution of a promise fires every
registration whose driving promise it is, in registration order, and
consumes them; rejection consumes them without firing (the catch
branch of cacheByIdOrEmail caches nothing).  Resolution of a directs
promise carrying the seeding callback seeds the profile of each member;
its rejection caches nothing. -/
def step (ev : Event) (s : GState) : GState :=
  match ev with
  | Event.callOp op key => (stepCall op key s).fst
  | Event.settleOk fid p =>
    let fired := (s.registrations.filter (fun r => r.driving = fid)).foldl
      (fun st r => fireRegistration p r st) s
    { fired with registrations := s.registrations.filter (fun r => !(r.driving = fid)) }
  | Event.settleErr fid _ =>
    { s with registrations := s.registrations.filter (fun r => !(r.driving = fid)) }
  | Event.settleDirectsOk fid members =>
    if s.seedPromises.contains fid then
      let seeded := members.foldl seedOneDirect s
      { seeded with seedPromises := s.seedPromises.filter (fun x => !(x = fid)) }
    else s
  | Event.settleDirectsErr _ _ => s

/-- Run of a sequence of events from the initial state. -/
def run (evs : List Event) : GState :=
  evs.foldl (fun s ev => step ev s) initState

/-
Chain traversal.  getAllManagers loops up to maxDepth = 15 times,
awaiting getManager on the current key, pushing the result and
advancing the key to the id of the result; the surrounding try/catch
returns the accumulated array when the awaited call rejects with an
error named NotFound and rethrows any other error.  The eventual
outcome of one awaited getManager call is abstracted as a resolver
function from keys to results; the loop is written on explicit fuel
and additionally counts how many manager lookups it awaited.
-/

/-- Loop of getAllManagers: fuel, current key and the array
accumulated so far; returns the overall outcome together with the
number of manager lookups performed. -/
def getAllManagersT (mgr : String → Except JsError IPersonaProfile) :
    Nat → String → List IPersonaProfile → Except JsError (List IPersonaProfile) × Nat
  | 0, _, res => (Except.ok res, 0)
  | Nat.succ n, k, res =>
    match mgr k with
    | Except.ok manager =>
      let r := getAllManagersT mgr n manager.id (res ++ [manager])
      (r.fst, r.snd + 1)
    | Except.error e =>
      if e.name = "NotFound" then (Except.ok res, 1) else (Except.error e, 1)

/-- getAllManagers from GraphService.ts: run the loop with
maxDepth = 15 from an empty accumulator. -/
def getAllManagers (mgr : String → Except JsError IPersonaProfile) (key : String) :
    Except JsError (List IPersonaProfile) :=
  (getAllManagersT mgr 15 key []).fst

/-- Number of manager lookups a getAllManagers run performs. -/
def getAllManagersLookups (mgr : String → Except JsError IPersonaProfile) (key : String) : Nat :=
  (getAllManagersT mgr 15 key []).snd

/-- Entry-inclusion predicate stated in the words of the spec, for
comparison with the filter getDirectsInternal applies: a direct
report is included exactly when its accountEnabled field is not
literally the boolean false. -/
def directIncludedSpec (p : UserData) : Bool :=
  match p.accountEnabled with
  | JsValue.boolVal false => false
  | _ => true

/-- Profile with the given id and email and no other data. -/
def mkProfile (id : String) (email : Option String) : IPersonaProfile :=
  { id := id
    displayName := none
    jobTitle := none
    department := none
    email := email
    officeLocation := none
    city := none
    businessPhone := none
    imAddress := none
    companyName := none }

/-- Raw user payload with the given id and accountEnabled value and
no other data. -/
def mkUser (id : String) (accountEnabled : JsValue) : UserData :=
  { id := id
    displayName := none
    jobTitle := none
    mail := none
    department := none
    officeLocation := none
    city := none
    businessPhones := none
    imAddresses := none
    companyName := none
    accountEnabled := accountEnabled }

/-- Direct-reports members with accountEnabled respectively
undefined, null, true and false. -/
def directsMembers : List UserData :=
  [mkUser "u1" JsValue.undef, mkUser "u2" JsValue.nullVal,
   mkUser "u3" (JsValue.boolVal true), mkUser "u4" (JsValue.boolVal false)]

/-- Successful direct-reports response carrying those four members. -/
def directsSample : HttpResponse (List UserData) :=
  { status := 200, statusText := "OK", body := directsMembers }

/-- Trace with a profile lookup by email then an independent lookup
by id, before either resolves. -/
def traceTwoKeys : List Event :=
  [Event.callOp OpKind.profileOp "e@x", Event.callOp OpKind.profileOp "i1"]

/-- The two-key trace continued by resolution of the promise of
the second lookup (promise 1) with the entity whose id is i1 and whose email is e@x. -/
def traceTwoKeysResolved : List Event :=
  traceTwoKeys ++ [Event.settleOk 1 (mkProfile "i1" (some "e@x"))]

/-- Manager resolver realizing a chain exactly 3 deep: a reports to
b, b to c, and the lookup of the manager key d of c fails with NotFound. -/
def mgrChain3 (k : String) : Except JsError IPersonaProfile :=
  if k = "a" then Except.ok (mkProfile "b" none)
  else if k = "b" then Except.ok (mkProfile "c" none)
  else if k = "c" then Except.ok (mkProfile "d" none)
  else Except.error { name := "NotFound", message := "Not Found" }

/-- Manager resolver realizing a cyclic manager graph: every entity
is its own manager. -/
def mgrCyclic (k : String) : Except JsError IPersonaProfile :=
  Except.ok (mkProfile k none)

/-
Theorems.
-/

/-- Helper: a public operation called on a key whose cache map already
holds a promise returns that promise and leaves the state unchanged. -/
theorem stepCall_hit (s : GState) (op : OpKind) (key : String) (f : Nat)
    (h : cacheOf op s key = some f) : stepCall op key s = (s, f) := by
  unfold stepCall
  rw [h]

/-- Helper: a public operation called on a key whose cache map holds
nothing stores the freshly created promise under that key and logs
exactly one fetch. -/
theorem stepCall_miss (s : GState) (op : OpKind) (key : String)
    (h : cacheOf op s key = none) :
    cacheOf op (stepCall op key s).fst key = some (stepCall op key s).snd
    ∧ ((stepCall op key s).fst).fetchLog = s.fetchLog ++ [(op, key)] := by
  unfold stepCall
  rw [h]
  cases op <;> cases hp : s.profilesCache key <;>
    simp [cacheOf, setCache, cacheInsert, hp]

/-- C1, counterexample: a 404 batch entry makes resolveProfileInternal
fail with a plain Error whose name is the string Error, not NotFound —
the batched profile path never classifies 404 as NotFound. -/
theorem resolveProfile_404_not_classified_notFound :
    errName (resolveProfileInternal
      { id := "1", status := 404
        body := { payload := mkUser "u" JsValue.undef
                  errMessage := some "Request_ResourceNotFound" } })
      = some "Error"
    ∧ ¬ (some "Error" = some "NotFound") := by
  exact ⟨rfl, by decide⟩

/-- C1, amended: for the direct-fetch operations (getManager,
getPhotoUrl, getDirects) an individual 404 response fails with an
error classified NotFound; resolveProfile on a 404 batch entry also
fails, but with a generic error named Error carrying the per-entry
message or status, not classified NotFound. -/
theorem http404_classification (st : String) (u : UserData) (blob : String)
    (directs : List UserData) (rid : String) (bb : BatchBody) :
    errName (getManagerInternal { status := 404, statusText := st, body := u }) = some "NotFound"
    ∧ errName (getPhotoUrlInternal { status := 404, statusText := st, body := blob }) = some "NotFound"
    ∧ errName (getDirectsInternal { status := 404, statusText := st, body := directs }) = some "NotFound"
    ∧ errName (resolveProfileInternal { id := rid, status := 404, body := bb }) = some "Error" := by
  exact ⟨rfl, rfl, rfl, rfl⟩

/-- C2, counterexample: after a profile lookup by email e@x (promise 0)
and an independent lookup by id i1 (promise 1), resolution of
promise 1 with the entity whose id is i1 and email e@x cross-indexes
promise 1 under e@x, replacing the entry that first stored promise 0:
a subsequent lookup for e@x no longer returns the future first stored
under it. -/
theorem cache_entry_replaced_after_cross_index :
    (run traceTwoKeys).profilesCache "e@x" = some 0
    ∧ (run traceTwoKeysResolved).profilesCache "e@x" = some 1
    ∧ ¬ ((1 : Nat) = 0) := by
  refine ⟨by decide, by decide, by decide⟩

/-- C2, amended: a lookup for a key whose cache map already holds a
future returns the currently stored future and performs no write at
all (so lookups never replace entries); an entry can still be
replaced, but only by the cross-indexing write fired when a promise
resolves with an entity whose id or email equals that key. -/
theorem lookup_returns_stored_promise (s : GState) (op : OpKind) (key : String) (f : Nat)
    (h : cacheOf op s key = some f) : stepCall op key s = (s, f) :=
  stepCall_hit s op key f h

/-- C2, witness for the amended theorem at a concrete state. -/
theorem lookup_returns_stored_promise_witness :
    cacheOf OpKind.profileOp (run [Event.callOp OpKind.profileOp "k"]) "k" = some 0
    ∧ stepCall OpKind.profileOp "k" (run [Event.callOp OpKind.profileOp "k"])
        = (run [Event.callOp OpKind.profileOp "k"], 0) :=
  ⟨by decide,
   lookup_returns_stored_promise (run [Event.callOp OpKind.profileOp "k"])
     OpKind.profileOp "k" 0 (by decide)⟩

/-- C3: a first lookup for an uncached key logs exactly one fetch,
and a second lookup for that key issued while the first promise is
still pending returns that same pending promise and changes nothing —
in particular it logs no additional fetch, so exactly one network
call is made for the key. -/
theorem coalescing_one_fetch (s : GState) (op : OpKind) (key : String)
    (h : cacheOf op s key = none) :
    ((stepCall op key s).fst).fetchLog = s.fetchLog ++ [(op, key)]
    ∧ stepCall op key (stepCall op key s).fst
        = ((stepCall op key s).fst, (stepCall op key s).snd) := by
  obtain ⟨h1, h2⟩ := stepCall_miss s op key h
  exact ⟨h2, stepCall_hit _ op key _ h1⟩

/-- C3, witness: coalescing at the initial state for the profile
operation. -/
theorem coalescing_one_fetch_witness :
    ((stepCall OpKind.profileOp "k" initState).fst).fetchLog
        = initState.fetchLog ++ [(OpKind.profileOp, "k")]
    ∧ stepCall OpKind.profileOp "k" (stepCall OpKind.profileOp "k" initState).fst
        = ((stepCall OpKind.profileOp "k" initState).fst,
           (stepCall OpKind.profileOp "k" initState).snd) :=
  coalescing_one_fetch initState OpKind.profileOp "k" (by decide)

/-- C4: after a profile lookup by key k creates promise 0 and that
promise resolves with a profile whose email is present (truthy), the
same promise 0 is stored under both the id of the profile and its email,
so a subsequent resolveProfile by either alternate key is a cache hit
returning promise 0 with no state change and no second fetch. -/
theorem cross_index_after_success (k m : String) (p : IPersonaProfile)
    (hm : p.email = some m) (hne : ¬ m = "") :
    (run [Event.callOp OpKind.profileOp k, Event.settleOk 0 p]).profilesCache p.id = some 0
    ∧ (run [Event.callOp OpKind.profileOp k, Event.settleOk 0 p]).profilesCache m = some 0
    ∧ stepCall OpKind.profileOp p.id (run [Event.callOp OpKind.profileOp k, Event.settleOk 0 p])
        = (run [Event.callOp OpKind.profileOp k, Event.settleOk 0 p], 0)
    ∧ stepCall OpKind.profileOp m (run [Event.callOp OpKind.profileOp k, Event.settleOk 0 p])
        = (run [Event.callOp OpKind.profileOp k, Event.settleOk 0 p], 0) := by
  have hpc : (run [Event.callOp OpKind.profileOp k, Event.settleOk 0 p]).profilesCache
      = cacheInsert (cacheInsert (cacheInsert (fun _ => none) k 0) p.id 0) m 0 := by
    simp [run, step, stepCall, initState, cacheOf, setCache, fireRegistration,
      cacheWrite, hm, hne]
  have hid : (run [Event.callOp OpKind.profileOp k, Event.settleOk 0 p]).profilesCache p.id
      = some 0 := by
    rw [hpc]
    unfold cacheInsert
    by_cases hpm : p.id = m <;> simp [hpm]
  have hmail : (run [Event.callOp OpKind.profileOp k, Event.settleOk 0 p]).profilesCache m
      = some 0 := by
    rw [hpc]
    unfold cacheInsert
    simp
  refine ⟨hid, hmail, stepCall_hit _ OpKind.profileOp p.id 0 hid,
    stepCall_hit _ OpKind.profileOp m 0 hmail⟩

/-- C4, witness at concrete keys: lookup by k1, resolution with id i1
and email m1, then cache hits under i1 and m1. -/
theorem cross_index_after_success_witness :
    (run [Event.callOp OpKind.profileOp "k1",
      Event.settleOk 0 (mkProfile "i1" (some "m1"))]).profilesCache "i1" = some 0
    ∧ (run [Event.callOp OpKind.profileOp "k1",
      Event.settleOk 0 (mkProfile "i1" (some "m1"))]).profilesCache "m1" = some 0
    ∧ stepCall OpKind.profileOp "i1" (run [Event.callOp OpKind.profileOp "k1",
        Event.settleOk 0 (mkProfile "i1" (some "m1"))])
      = (run [Event.callOp OpKind.profileOp "k1",
          Event.settleOk 0 (mkProfile "i1" (some "m1"))], 0)
    ∧ stepCall OpKind.profileOp "m1" (run [Event.callOp OpKind.profileOp "k1",
        Event.settleOk 0 (mkProfile "i1" (some "m1"))])
      = (run [Event.callOp OpKind.profileOp "k1",
          Event.settleOk 0 (mkProfile "i1" (some "m1"))], 0) :=
  cross_index_after_success "k1" "m1" (mkProfile "i1" (some "m1")) rfl (by decide)

/-- C5: when a driving promise rejects, the registered cacheByIdOrEmail
callback writes nothing — every cache map and the fetch log are
unchanged, so the rejected future stays under its original lookup key
and no alternate key is written; rejection of a directs promise
likewise caches nothing. -/
theorem rejection_writes_nothing (s : GState) (fid : Nat) (e : JsError) :
    ((step (Event.settleErr fid e) s).profilesCache = s.profilesCache
      ∧ (step (Event.settleErr fid e) s).photosCache = s.photosCache
      ∧ (step (Event.settleErr fid e) s).managersCache = s.managersCache
      ∧ (step (Event.settleErr fid e) s).directsCache = s.directsCache
      ∧ (step (Event.settleErr fid e) s).fetchLog = s.fetchLog)
    ∧ step (Event.settleDirectsErr fid e) s = s :=
  ⟨⟨rfl, rfl, rfl, rfl, rfl⟩, rfl⟩

/-- Helper: the first settle call recorded for an id that occurs in
the snapshot, when every request is given the same settlement. -/
theorem promiseOutcome_map_const (snapshot : List PendingRequest) (c : Settlement)
    (id : String) (h : ∃ r ∈ snapshot, r.id = id) :
    promiseOutcome (snapshot.map (fun r => (r.id, c))) id = some c := by
  induction snapshot with
  | nil => rcases h with ⟨r, hr, _⟩; cases hr
  | cons q rest ih =>
    by_cases hq : q.id = id
    · simp [promiseOutcome, List.find?, hq]
    · rcases h with ⟨r, hr, hrid⟩
      rcases List.mem_cons.mp hr with h1 | h2
      · exact absurd (h1 ▸ hrid) hq
      · have hrec := ih ⟨r, h2, hrid⟩
        simpa [promiseOutcome, List.find?, hq] using hrec

/-- Helper: when the id of every entry occurs in the snapshot, the resolve
loop never crashes and records one resolve call per entry, in entry
order. -/
theorem entrySettleCalls_all_matched (snapshot : List PendingRequest)
    (entries : List BatchResponseEntry)
    (h : ∀ en ∈ entries, snapshot.any (fun x => x.id = en.id) = true) :
    entrySettleCalls snapshot entries
      = entries.map (fun en => (en.id, Settlement.resolved en)) := by
  induction entries with
  | nil => rfl
  | cons e rest ih =>
    have he := h e (List.mem_cons_self e rest)
    simp only [entrySettleCalls, he, if_true, List.map_cons]
    exact congrArg _ (ih (fun en hen => h en (List.mem_cons_of_mem e hen)))

/-- Helper: the promise outcome over the resolve calls of an entry
list is dispatch by id through find?. -/
theorem promiseOutcome_resolved_map (entries : List BatchResponseEntry) (id : String) :
    promiseOutcome (entries.map (fun en => (en.id, Settlement.resolved en))) id
      = (entries.find? (fun en => en.id = id)).map Settlement.resolved := by
  induction entries with
  | nil => rfl
  | cons e rest ih =>
    by_cases he : e.id = id
    · simp [promiseOutcome, List.find?, he]
    · simpa [promiseOutcome, List.find?, he] using ih

/-- Helper: with pairwise distinct entry ids, find? by the id of a
member of the list returns exactly that member. -/
theorem find?_entry_of_nodup (entries : List BatchResponseEntry) (en : BatchResponseEntry)
    (hnodup : (entries.map (fun x => x.id)).Nodup) (hen : en ∈ entries) :
    entries.find? (fun x => x.id = en.id) = some en := by
  induction entries with
  | nil => cases hen
  | cons e rest ih =>
    have hnd : (∀ x ∈ rest, ¬ x.id = e.id) ∧ (rest.map (fun x => x.id)).Nodup := by
      simpa using hnodup
    rcases List.mem_cons.mp hen with h1 | h2
    · subst h1; simp [List.find?]
    · have hne : ¬ (e.id = en.id) := fun hc => hnd.1 en h2 hc.symm
      simpa [List.find?, hne] using ih hnd.2 h2

/-- C6, counterexample: a successful batch response that contains no
entry for the id of a pending request settles the future of that request zero
times — it is neither resolved by a matched entry nor rejected by a
batch-wide failure, so it is not settled exactly once in all cases. -/
theorem pending_request_never_settled :
    ("1" ∈ ([{ id := "1", url := "/users/u", method := "GET" }] :
        List PendingRequest).map (fun r => r.id))
    ∧ promiseOutcome (processBatchCalls [{ id := "1", url := "/users/u", method := "GET" }]
        (BatchOutcome.httpResponse 200 "OK" [])) "1" = none := by
  exact ⟨by decide, rfl⟩

/-- C6, amended: on transport-level failure of the batch call every
pending request of the snapshot is rejected with that same failure,
and on a non-ok batch response every pending request is rejected with
the error built from that response; the future of each pending request is
settled at most once (it adopts its first settlement), and it is
settled exactly once provided the batch fails or the ok response
contains an entry matching its id. -/
theorem batch_settlement (snapshot : List PendingRequest) (r : PendingRequest)
    (hr : r ∈ snapshot) :
    (∀ e, promiseOutcome (processBatchCalls snapshot (BatchOutcome.transportError e)) r.id
        = some (Settlement.rejected e))
    ∧ (∀ status statusText entries, ¬ (200 ≤ status ∧ status < 300) →
        promiseOutcome (processBatchCalls snapshot
            (BatchOutcome.httpResponse status statusText entries)) r.id
          = some (Settlement.rejected (buildErrorFromResponse
              { status := status, statusText := statusText, body := () })))
    ∧ (∀ status statusText entries, (200 ≤ status ∧ status < 300) →
        (∀ en ∈ entries, snapshot.any (fun x => x.id = en.id) = true) →
        (∃ en ∈ entries, en.id = r.id) →
        ∃ en ∈ entries, en.id = r.id
          ∧ promiseOutcome (processBatchCalls snapshot
              (BatchOutcome.httpResponse status statusText entries)) r.id
            = some (Settlement.resolved en)) := by
  refine ⟨?_, ?_, ?_⟩
  · intro e
    exact promiseOutcome_map_const snapshot (Settlement.rejected e) r.id ⟨r, hr, rfl⟩
  · intro status statusText entries hnot
    simp only [processBatchCalls, if_neg hnot]
    exact promiseOutcome_map_const snapshot _ r.id ⟨r, hr, rfl⟩
  · intro status statusText entries hok hall hex
    rcases hex with ⟨en0, hen0, hid0⟩
    have hfind : (entries.find? (fun en => en.id = r.id)).isSome := by
      rw [List.find?_isSome]
      exact ⟨en0, hen0, by simp [hid0]⟩
    rcases Option.isSome_iff_exists.mp hfind with ⟨en1, hen1⟩
    have hmem1 : en1 ∈ entries := List.mem_of_find?_eq_some hen1
    have hid1 : en1.id = r.id := by
      have := List.find?_some hen1
      simpa using this
    refine ⟨en1, hmem1, hid1, ?_⟩
    simp only [processBatchCalls, if_pos hok]
    rw [entrySettleCalls_all_matched snapshot entries hall,
      promiseOutcome_resolved_map, hen1]
    rfl

/-- C6, witness: a transport failure for a batch of 3 pending
requests rejects all 3 with the same failure, and a matched ok
response resolves a request with its own entry. -/
theorem batch_settlement_witness :
    ({ id := "2", url := "/b", method := "GET" } ∈
      ([{ id := "1", url := "/a", method := "GET" },
        { id := "2", url := "/b", method := "GET" },
        { id := "3", url := "/c", method := "GET" }] : List PendingRequest))
    ∧ promiseOutcome (processBatchCalls
        [{ id := "1", url := "/a", method := "GET" },
         { id := "2", url := "/b", method := "GET" },
         { id := "3", url := "/c", method := "GET" }]
        (BatchOutcome.transportError { name := "TypeError", message := "Failed to fetch" })) "2"
      = some (Settlement.rejected { name := "TypeError", message := "Failed to fetch" }) := by
  refine ⟨by decide, ?_⟩
  exact (batch_settlement
    [{ id := "1", url := "/a", method := "GET" },
     { id := "2", url := "/b", method := "GET" },
     { id := "3", url := "/c", method := "GET" }]
    { id := "2", url := "/b", method := "GET" } (by decide)).1
    { name := "TypeError", message := "Failed to fetch" }

/-- C7: when the entries of the ok response have pairwise distinct ids all
belonging to the snapshot, every entry settles exactly the pending
request whose id equals the id of the entry, and this holds for any
permutation of the entry list — so reverse-order responses still
settle each original caller with its correct corresponding result. -/
theorem id_based_dispatch (snapshot : List PendingRequest)
    (es es2 : List BatchResponseEntry) (hperm : es.Perm es2)
    (hnodup : (es.map (fun en => en.id)).Nodup)
    (hin : ∀ en ∈ es, snapshot.any (fun x => x.id = en.id) = true)
    (status : Nat) (statusText : String) (hok : 200 ≤ status ∧ status < 300)
    (en : BatchResponseEntry) (hen : en ∈ es) :
    promiseOutcome (processBatchCalls snapshot
        (BatchOutcome.httpResponse status statusText es2)) en.id
      = some (Settlement.resolved en) := by
  have hin2 : ∀ x ∈ es2, snapshot.any (fun r => r.id = x.id) = true :=
    fun x hx => hin x (hperm.mem_iff.mpr hx)
  have hnodup2 : (es2.map (fun x => x.id)).Nodup := ((hperm.map _).nodup_iff).mp hnodup
  have hen2 : en ∈ es2 := hperm.mem_iff.mp hen
  simp only [processBatchCalls, if_pos hok]
  rw [entrySettleCalls_all_matched snapshot es2 hin2, promiseOutcome_resolved_map,
    find?_entry_of_nodup es2 en hnodup2 hen2]
  rfl

/-- C7, witness: a two-entry response delivered in reverse order
settles each of the two callers with its own entry. -/
theorem id_based_dispatch_witness :
    promiseOutcome (processBatchCalls
        [{ id := "1", url := "/a", method := "GET" },
         { id := "2", url := "/b", method := "GET" }]
        (BatchOutcome.httpResponse 200 "OK"
          [{ id := "2", status := 200, body := { payload := mkUser "u2" JsValue.undef, errMessage := none } },
           { id := "1", status := 200, body := { payload := mkUser "u1" JsValue.undef, errMessage := none } }])) "1"
      = some (Settlement.resolved
          { id := "1", status := 200, body := { payload := mkUser "u1" JsValue.undef, errMessage := none } })
    ∧ promiseOutcome (processBatchCalls
        [{ id := "1", url := "/a", method := "GET" },
         { id := "2", url := "/b", method := "GET" }]
        (BatchOutcome.httpResponse 200 "OK"
          [{ id := "2", status := 200, body := { payload := mkUser "u2" JsValue.undef, errMessage := none } },
           { id := "1", status := 200, body := { payload := mkUser "u1" JsValue.undef, errMessage := none } }])) "2"
      = some (Settlement.resolved
          { id := "2", status := 200, body := { payload := mkUser "u2" JsValue.undef, errMessage := none } }) :=
  ⟨id_based_dispatch
      [{ id := "1", url := "/a", method := "GET" },
       { id := "2", url := "/b", method := "GET" }]
      [{ id := "1", status := 200, body := { payload := mkUser "u1" JsValue.undef, errMessage := none } },
       { id := "2", status := 200, body := { payload := mkUser "u2" JsValue.undef, errMessage := none } }]
      [{ id := "2", status := 200, body := { payload := mkUser "u2" JsValue.undef, errMessage := none } },
       { id := "1", status := 200, body := { payload := mkUser "u1" JsValue.undef, errMessage := none } }]
      (by decide) (by decide) (by decide) 200 "OK" (by decide)
      { id := "1", status := 200, body := { payload := mkUser "u1" JsValue.undef, errMessage := none } }
      (by decide),
   id_based_dispatch
      [{ id := "1", url := "/a", method := "GET" },
       { id := "2", url := "/b", method := "GET" }]
      [{ id := "1", status := 200, body := { payload := mkUser "u1" JsValue.undef, errMessage := none } },
       { id := "2", status := 200, body := { payload := mkUser "u2" JsValue.undef, errMessage := none } }]
      [{ id := "2", status := 200, body := { payload := mkUser "u2" JsValue.undef, errMessage := none } },
       { id := "1", status := 200, body := { payload := mkUser "u1" JsValue.undef, errMessage := none } }]
      (by decide) (by decide) (by decide) 200 "OK" (by decide)
      { id := "2", status := 200, body := { payload := mkUser "u2" JsValue.undef, errMessage := none } }
      (by decide)⟩

/-- C8: the moment the manager resolver fails, the traversal with
accumulated sequence res either returns exactly res without error
when the failure is classified NotFound, or propagates that same
error unchanged (discarding the sequence gathered so far) otherwise; in
particular a first-step NotFound yields the empty sequence. -/
theorem ascent_stops_on_notFound (mgr : String → Except JsError IPersonaProfile)
    (n : Nat) (k : String) (res : List IPersonaProfile) (e : JsError)
    (h : mgr k = Except.error e) :
    (e.name = "NotFound" → getAllManagersT mgr (n + 1) k res = (Except.ok res, 1))
    ∧ (¬ e.name = "NotFound" → getAllManagersT mgr (n + 1) k res = (Except.error e, 1))
    ∧ (e.name = "NotFound" → getAllManagers mgr k = Except.ok []) := by
  refine ⟨?_, ?_, ?_⟩ <;> intro hnf
  · simp [getAllManagersT, h, hnf]
  · simp [getAllManagersT, h, hnf]
  · unfold getAllManagers
    rw [show (15 : Nat) = 14 + 1 from rfl]
    simp [getAllManagersT, h, hnf]

/-- C8, witness: on the chain exactly 3 deep the full traversal
returns exactly the 3 managers without error after 4 lookups, and
the theorem applied at the failing 4th key returns the accumulated
3-element sequence. -/
theorem ascent_stops_on_notFound_witness :
    getAllManagers mgrChain3 "a"
      = Except.ok [mkProfile "b" none, mkProfile "c" none, mkProfile "d" none]
    ∧ getAllManagersLookups mgrChain3 "a" = 4
    ∧ getAllManagersT mgrChain3 12 "d"
        [mkProfile "b" none, mkProfile "c" none, mkProfile "d" none]
      = (Except.ok [mkProfile "b" none, mkProfile "c" none, mkProfile "d" none], 1) :=
  ⟨rfl, rfl,
   (ascent_stops_on_notFound mgrChain3 11 "d"
      [mkProfile "b" none, mkProfile "c" none, mkProfile "d" none]
      { name := "NotFound", message := "Not Found" } rfl).1 rfl⟩

/-- Helper: the traversal loop with fuel n performs at most n lookups
and can lengthen the accumulated sequence by at most n. -/
theorem getAllManagersT_bounds (mgr : String → Except JsError IPersonaProfile) (n : Nat) :
    ∀ (k : String) (res : List IPersonaProfile),
      (getAllManagersT mgr n k res).snd ≤ n
      ∧ ∀ l, (getAllManagersT mgr n k res).fst = Except.ok l → l.length ≤ res.length + n := by
  induction n with
  | zero =>
    intro k res
    refine ⟨Nat.le_refl 0, fun l hl => ?_⟩
    simp [getAllManagersT] at hl
    simp [← hl]
  | succ n ih =>
    intro k res
    cases hm : mgr k with
    | ok m =>
      have hrec := ih m.id (res ++ [m])
      constructor
      · simp only [getAllManagersT, hm]
        exact Nat.succ_le_succ hrec.1
      · intro l hl
        simp only [getAllManagersT, hm] at hl
        have := hrec.2 l hl
        simp [List.length_append] at this
        omega
    | error e =>
      by_cases hnf : e.name = "NotFound"
      · constructor
        · simp [getAllManagersT, hm, hnf]
        · intro l hl
          simp [getAllManagersT, hm, hnf] at hl
          simp [← hl]
      · constructor
        · simp [getAllManagersT, hm, hnf]
        · intro l hl
          simp [getAllManagersT, hm, hnf] at hl

/-- C9: for every manager resolver and starting key — including cyclic
or malformed manager graphs — getAllManagers performs at most 15
manager lookups and, when it returns a sequence, that sequence holds
at most 15 profiles; the traversal is total by construction. -/
theorem ascent_bounded (mgr : String → Except JsError IPersonaProfile) (key : String) :
    getAllManagersLookups mgr key ≤ 15
    ∧ ∀ l, getAllManagers mgr key = Except.ok l → l.length ≤ 15 := by
  have h := getAllManagersT_bounds mgr 15 key []
  exact ⟨h.1, fun l hl => by simpa using h.2 l hl⟩

/-- C9, witness: on the cyclic graph where every entity is its own
manager, the run from key x performs at most 15 lookups and returns
the 15-element constant sequence, whose length is at most 15. -/
theorem ascent_bounded_witness :
    getAllManagersLookups mgrCyclic "x" ≤ 15
    ∧ (List.replicate 15 (mkProfile "x" none)).length ≤ 15 :=
  ⟨(ascent_bounded mgrCyclic "x").1,
   (ascent_bounded mgrCyclic "x").2 (List.replicate 15 (mkProfile "x" none)) rfl⟩

/-- C10: on a successful direct-reports response the result is exactly
the entries whose accountEnabled field is not literally the boolean
false, each mapped through buildProfile; the strict test the filter
applies is true only on the boolean false, so entries whose
accountEnabled field is undefined (in particular absent), null, a
string, a number, or true are included. -/
theorem directs_filter_excludes_only_false (response : HttpResponse (List UserData))
    (h : respOk response = true) :
    getDirectsInternal response
      = Except.ok ((response.body.filter directIncludedSpec).map buildProfile)
    ∧ (∀ v : JsValue, jsStrictEqFalse v = true ↔ v = JsValue.boolVal false)
    ∧ (∀ p : UserData, directIncludedSpec p = true ↔ ¬ p.accountEnabled = JsValue.boolVal false) := by
  have hfun : ∀ p : UserData, (!jsStrictEqFalse p.accountEnabled) = directIncludedSpec p := by
    intro p
    unfold jsStrictEqFalse directIncludedSpec
    cases p.accountEnabled with
    | boolVal b => cases b <;> rfl
    | undef => rfl
    | nullVal => rfl
    | strVal s => rfl
    | numVal n => rfl
  refine ⟨?_, ?_, ?_⟩
  · unfold getDirectsInternal
    rw [if_pos h]
    have : (fun p : UserData => !jsStrictEqFalse p.accountEnabled) = directIncludedSpec :=
      funext hfun
    rw [this]
  · intro v
    unfold jsStrictEqFalse
    cases v with
    | boolVal b => cases b <;> simp
    | undef => simp
    | nullVal => simp
    | strVal s => simp
    | numVal n => simp
  · intro p
    rw [← hfun p]
    unfold jsStrictEqFalse
    cases p.accountEnabled with
    | boolVal b => cases b <;> simp
    | undef => simp
    | nullVal => simp
    | strVal s => simp
    | numVal n => simp

/-- C10, witness: a response with four members whose accountEnabled
fields are undefined, null, true and false resolves to the three
members not literally disabled, and the theorem applies to it. -/
theorem directs_filter_excludes_only_false_witness :
    respOk directsSample = true
    ∧ getDirectsInternal directsSample
      = Except.ok ((directsSample.body.filter directIncludedSpec).map buildProfile)
    ∧ directsMembers.filter directIncludedSpec
      = [mkUser "u1" JsValue.undef, mkUser "u2" JsValue.nullVal,
         mkUser "u3" (JsValue.boolVal true)] :=
  ⟨by decide,
   (directs_filter_excludes_only_false directsSample (by decide)).1,
   by decide⟩

end GraphService
